import Mathlib

/-
Verification development for the core of `something_bg`
(src/core/src/scheduler.rs, src/core/src/tunnel.rs, src/core/src/config.rs).

Shallow embedding conventions:
* Instants (`chrono::DateTime<Local>`) are modelled as integers (`Int`);
  only their linear order and equality are used by the core.
* The external cron evaluator (`croner::Cron`) is modelled as a function
  `CronEval : Int → Option Int`: `find_next_occurrence(&t, false)` returns
  `some u` on `Ok(u)` and `none` on `Err(_)`.  Parsing
  (`Cron::from_str`) is a parameter `parse : String → Option CronEval`.
* `HashMap`/`HashSet` are modelled as association lists / lists of keys;
  the core only uses per-key lookup, insert, remove, iteration and
  emptiness, none of which depend on hash order for the properties below.
* Process spawning is an external effect; each spawn's success/failure is
  supplied as a boolean parameter.  Logging is dropped.
* A Rust `panic!` (from `.unwrap()` on a failed lookup) is modelled by an
  `Option` result: `none` means the call panicked.
-/

namespace SomethingBg

abbrev Instant := Int

/-- External capability: a compiled cron expression, as the function
`t ↦ find_next_occurrence(&t, false)` (`none` models `Err`). -/
abbrev CronEval := Instant → Option Instant

/-- `HashMap::get` on an association list. -/
def lookupKey (key : String) : List (String × α) → Option α
  | [] => none
  | p :: rest => if p.1 = key then some p.2 else lookupKey key rest

/-- `HashMap::insert` on an association list: replaces the binding for
`key` if present, otherwise appends it. -/
def insertKey (key : String) (v : α) : List (String × α) → List (String × α)
  | [] => [(key, v)]
  | p :: rest => if p.1 = key then (key, v) :: rest else p :: insertKey key v rest

/-- `HashSet::insert` on a duplicate-free list of keys. -/
def insertSet (key : String) (s : List String) : List String :=
  if key ∈ s then s else key :: s

/-- `HashSet::remove` on a list of keys. -/
def removeSet (key : String) (s : List String) : List String :=
  s.filter (fun k => k ≠ key)

/-! ## Scheduler data model (src/core/src/scheduler.rs) -/

/-- Persisted record for one task (scheduler.rs, `TaskState`). -/
structure TaskState where
  last_run : Option Instant
  next_run : Option Instant
deriving DecidableEq

/-- Static configuration of one scheduled task (config.rs,
`ScheduledTaskConfig`; the display-only fields are carried unchanged). -/
structure ScheduledTaskConfig where
  name : String
  command : String
  args : List String
  cron_schedule : String
  separator_after : Option Bool := none
  group_header : Option String := none
  group_icon : Option String := none

/-- One scheduled task with its runtime state (scheduler.rs,
`ScheduledTask`). -/
structure ScheduledTask where
  name : String
  command : String
  args : List String
  cron_schedule : String
  last_run : Option Instant
  next_run : Option Instant
  cron : Option CronEval

/-- `ScheduledTask::calculate_next_run`: ask the evaluator for the next
occurrence after `from_time` (`Err` logs and yields `None`). -/
def ScheduledTask.calculate_next_run (cron : CronEval) (from_time : Instant) :
    Option Instant :=
  match cron from_time with
  | some next => some next
  | none => none

/-- `ScheduledTask::new` (scheduler.rs:91-147): parse the cron schedule
(an unparsable expression is the only error), reuse a persisted
`next_run` verbatim when present, otherwise compute one from `now`;
`last_run` comes from the persisted state when present. -/
def ScheduledTask.new (parse : String → Option CronEval)
    (config : ScheduledTaskConfig) (state : Option TaskState) (now : Instant) :
    Except String ScheduledTask :=
  match parse config.cron_schedule with
  | none => .error ("Failed to parse cron schedule " ++ config.cron_schedule)
  | some cron =>
    let next_run :=
      match state with
      | some st =>
        match st.next_run with
        | some saved_next_run => some saved_next_run
        | none => ScheduledTask.calculate_next_run cron now
      | none => ScheduledTask.calculate_next_run cron now
    let last_run := state.bind (fun s => s.last_run)
    .ok { name := config.name
          command := config.command
          args := config.args
          cron_schedule := config.cron_schedule
          last_run := last_run
          next_run := next_run
          cron := some cron }

/-- `ScheduledTask::should_run`: due iff `next_run` is set and
`now >= next_run`. -/
def ScheduledTask.should_run (t : ScheduledTask) (now : Instant) : Bool :=
  match t.next_run with
  | some next_run => decide (next_run ≤ now)
  | none => false

/-- `ScheduledTask::update_next_run` (scheduler.rs:186-207): after an
execution at `now`, set `last_run := now` and recompute `next_run` from
`now`; a failed evaluation clears `next_run`. -/
def ScheduledTask.update_next_run (t : ScheduledTask) (now : Instant) :
    ScheduledTask :=
  match t.cron with
  | some cron =>
    { t with
      last_run := some now
      next_run :=
        match cron now with
        | some next => some next
        | none => none }
  | none => t

/-- `ScheduledTask::execute` (scheduler.rs:210-238): spawn the command
(`spawn_ok` is the OS outcome).  On success advance the task; on failure
return an error and leave the task untouched. -/
def ScheduledTask.execute (t : ScheduledTask) (now : Instant) (spawn_ok : Bool) :
    ScheduledTask × Except String Unit :=
  if spawn_ok then
    (t.update_next_run now, .ok ())
  else
    (t, .error ("Failed to execute task " ++ t.name))

/-- The missed-run predicate of `check_and_run_missed_tasks`
(scheduler.rs:433-445): `next_run` is set, `now >= next_run`, and
(`last_run` is absent or `last_run < next_run`). -/
def missed (t : ScheduledTask) (now : Instant) : Bool :=
  match t.next_run with
  | some next_run =>
    let is_overdue := decide (next_run ≤ now)
    let was_not_run_yet :=
      match t.last_run with
      | none => true
      | some lr => decide (lr < next_run)
    is_overdue && was_not_run_yet
  | none => false

/-- `TaskScheduler::check_and_run_missed_tasks` (scheduler.rs:413-468),
as its action on the task map: for each entry test the missed predicate
inline and execute the task when it holds.  Returns the updated map, the
keys whose tasks were executed (in map order), and the `any_task_run`
flag (set only by a successful execution).  `spawn_ok key` is the OS
spawn outcome for that task's command. -/
def check_and_run_missed_tasks (now : Instant) (spawn_ok : String → Bool) :
    List (String × ScheduledTask) →
    List (String × ScheduledTask) × List String × Bool
  | [] => ([], [], false)
  | (key, task) :: rest =>
    let step : ScheduledTask × Bool × Bool :=
      match task.next_run with
      | some next_run =>
        let is_overdue := decide (next_run ≤ now)
        let was_not_run_yet :=
          match task.last_run with
          | none => true
          | some lr => decide (lr < next_run)
        if is_overdue && was_not_run_yet then
          match task.execute now (spawn_ok key) with
          | (task', .ok _) => (task', true, true)
          | (task', .error _) => (task', true, false)
        else (task, false, false)
      | none => (task, false, false)
    let tail := check_and_run_missed_tasks now spawn_ok rest
    ((key, step.1) :: tail.1,
     (if step.2.1 then [key] else []) ++ tail.2.1,
     step.2.2 || tail.2.2)

/-! ## Task scheduler (src/core/src/scheduler.rs, `TaskScheduler`) -/

/-- `TaskScheduler` owned state (the `Arc<Mutex<_>>` wrappers are
dropped; the model is the sequential content of the critical sections). -/
structure TaskScheduler where
  tasks : List (String × ScheduledTask)
  path : String
  running : Bool
  states : List (String × TaskState)
  state_file : String

/-- `TaskScheduler::add_task` (scheduler.rs:265-276): build the task from
the config and any persisted state; on success insert it into the map,
on error leave the map unchanged and propagate the error. -/
def TaskScheduler.add_task (parse : String → Option CronEval)
    (sch : TaskScheduler) (key : String) (config : ScheduledTaskConfig)
    (now : Instant) : TaskScheduler × Except String Unit :=
  let state := lookupKey key sch.states
  match ScheduledTask.new parse config state now with
  | .error e => (sch, .error e)
  | .ok task => ({ sch with tasks := insertKey key task sch.tasks }, .ok ())

/-! ## State store (src/core/src/scheduler.rs, `load_task_states` /
`save_task_states`)

The `toml` + `serde` + `chrono` serialization stack is an external
capability.  It is modelled at the level of the structured value tree the
`toml` crate parses to / renders from: a datetime leaf (a `chrono`
datetime round-trips exactly through its serialized form) or a table.
`serde`'s derived impls for `TaskState` put an `Option` field in the
table exactly when it is `Some`, and read a missing field back as
`None`. -/

/-- Structured content of the persisted TOML state file. -/
inductive Toml where
  | datetime : Instant → Toml
  | table : List (String × Toml) → Toml

/-- Serialization of one `TaskState` (derived `Serialize`): each `Some`
field becomes a datetime entry, each `None` field is omitted. -/
def TaskState.toToml (s : TaskState) : Toml :=
  .table
    ((match s.last_run with
      | some t => [("last_run", Toml.datetime t)]
      | none => []) ++
     (match s.next_run with
      | some t => [("next_run", Toml.datetime t)]
      | none => []))

/-- Read one optional datetime field of a table (derived `Deserialize`):
a missing field is `None`, a datetime field is `Some`, any other shape is
a parse error (outer `none`). -/
def readDatetimeField (kvs : List (String × Toml)) (field : String) :
    Option (Option Instant) :=
  match lookupKey field kvs with
  | none => some none
  | some (.datetime t) => some (some t)
  | some (.table _) => none

/-- Deserialization of one `TaskState` (derived `Deserialize`). -/
def TaskState.fromToml : Toml → Option TaskState
  | .table kvs =>
    match readDatetimeField kvs "last_run", readDatetimeField kvs "next_run" with
    | some lr, some nr => some { last_run := lr, next_run := nr }
    | _, _ => none
  | .datetime _ => none

/-- Serialization of the whole state map
(`toml::to_string_pretty(&states)`). -/
def statesToToml (states : List (String × TaskState)) : Toml :=
  .table (states.map (fun p => (p.1, p.2.toToml)))

/-- Deserialize every entry of the top-level table; any malformed entry
fails the whole parse. -/
def decodeStateEntries : List (String × Toml) → Option (List (String × TaskState))
  | [] => some []
  | (k, v) :: rest =>
    match TaskState.fromToml v, decodeStateEntries rest with
    | some s, some tail => some ((k, s) :: tail)
    | _, _ => none

/-- Deserialization of the whole state map (`toml::from_str`). -/
def statesFromToml : Toml → Option (List (String × TaskState))
  | .table kvs => decodeStateEntries kvs
  | .datetime _ => none

/-- The filesystem, as a map from path to the (structured) content of the
file at that path; `none` on lookup means the file does not exist. -/
abbrev FileSystem := List (String × Toml)

/-- `save_task_states` (scheduler.rs:54-75): serialize the full map and
overwrite the state file wholesale. -/
def save_task_states (path : String) (states : List (String × TaskState))
    (fs : FileSystem) : FileSystem :=
  insertKey path (statesToToml states) fs

/-- `load_task_states` (scheduler.rs:30-51): a missing file is an empty
map; an unreadable or unparsable file degrades to an empty map. -/
def load_task_states (path : String) (fs : FileSystem) :
    List (String × TaskState) :=
  match lookupKey path fs with
  | none => []
  | some contents =>
    match statesFromToml contents with
    | some states => states
    | none => []

/-- `TaskScheduler::save_states` (scheduler.rs:279-302): snapshot every
task's runtime fields, replace the in-memory states map, and write the
snapshot to the state file. -/
def TaskScheduler.save_states (sch : TaskScheduler) (fs : FileSystem) :
    TaskScheduler × FileSystem :=
  let states_map :=
    sch.tasks.map (fun p => (p.1, TaskState.mk p.2.last_run p.2.next_run))
  ({ sch with states := states_map },
   save_task_states sch.state_file states_map fs)

/-! ## Tunnel manager (src/core/src/tunnel.rs) -/

/-- `TunnelCommand` (tunnel.rs:14-20). -/
structure TunnelCommand where
  command : String
  args : List String
  kill_command : String
  kill_args : List String

/-- `TunnelManager` (tunnel.rs:24-27): the command registry and the
active-tunnel set (the `Arc<Mutex<_>>` wrappers are dropped). -/
structure TunnelManager where
  commands_config : List (String × TunnelCommand)
  active_tunnels : List String

/-- `TunnelManager::has_active_tunnels` (tunnel.rs:161-164). -/
def TunnelManager.has_active_tunnels (m : TunnelManager) : Bool :=
  !m.active_tunnels.isEmpty

/-- `std::process::Command`, restricted to what the PATH-merge fragment
inspects: `explicit_env` holds exactly the environment entries explicitly
set or removed on this builder (`Command::get_envs` reports only those,
never the inherited process environment). -/
structure Command where
  program : String
  explicit_env : List (String × Option String)

/-- `Command::new(program)`: a fresh builder with no explicit
environment entries. -/
def Command.new (program : String) : Command :=
  { program := program, explicit_env := [] }

/-- `Command::get_envs`. -/
def Command.get_envs (c : Command) : List (String × Option String) :=
  c.explicit_env

/-- The `new_path` computation of the supervisor loop (tunnel.rs:77-84):
search the builder's explicit environment for `PATH`; if found with a
value, prepend the configured path with a `:`; otherwise fall back to
the configured path alone. -/
def tunnel_new_path (cmd : Command) (config_path : String) : String :=
  (((cmd.get_envs.find? (fun kv => kv.1 == "PATH")).map
      (fun kv => kv.2.map (fun path => config_path ++ ":" ++ path))).join).getD
    config_path

/-- The PATH value actually given to one spawned start command in the
supervisor loop: the builder is freshly created
(`Command::new(&command.command)`, tunnel.rs:67) and `new_path` is
computed from it, then set with `cmd.env("PATH", new_path)`.
`process_env_path` is the process's own PATH variable; it is listed as an
input to show it is never consulted. -/
def spawn_attempt_path (command : TunnelCommand) (config_path : String)
    (_process_env_path : Option String) : String :=
  tunnel_new_path (Command.new command.command) config_path

/-- The PATH merge as the spec describes it (spec.md §4.2: "prepend
configured path to the existing PATH variable, or use the configured path
alone if no PATH is set").  Stated from the spec's words, for comparison
with `spawn_attempt_path`. -/
def spec_merged_path (config_path : String) (process_env_path : Option String) :
    String :=
  match process_env_path with
  | some p => config_path ++ ":" ++ p
  | none => config_path

/-- `Config::get_path` (config.rs:131-136): the configured PATH override
when present, otherwise the process's PATH variable (empty when unset). -/
def Config.get_path (config_path_field : Option String)
    (process_env_path : Option String) : String :=
  match config_path_field with
  | some path => path
  | none => process_env_path.getD ""

/-- The supervisor loop body spawned by the enable path of
`TunnelManager::toggle` (tunnel.rs:47-109), run to completion.  The loop
re-tests membership of `key` in the active set and `attempts < 5` each
iteration, re-reads the command from the registry (`.unwrap()`: a missing
key panics the supervisor thread, modelled by `none`), spawns, and on a
successful spawn waits for the child to exit.  The model is sequential:
the active set is not mutated concurrently, and every spawned child
terminates (`spawn_ok n` tells whether attempt `n`'s spawn succeeded;
either way the iteration completes and `attempts` is incremented).
Returns the final `attempts` counter and the (untouched) active set. -/
def supervisor_loop (commands_config : List (String × TunnelCommand))
    (active_tunnels : List String) (command_key : String)
    (spawn_ok : Nat → Bool) (attempts : Nat) : Option (Nat × List String) :=
  if _h : command_key ∈ active_tunnels ∧ attempts < 5 then
    match lookupKey command_key commands_config with
    | none => none
    | some _command => supervisor_loop commands_config active_tunnels
        command_key spawn_ok (attempts + 1)
  else
    some (attempts, active_tunnels)
termination_by 5 - attempts
decreasing_by omega

/-- `TunnelManager::toggle` (tunnel.rs:34-134), as its sequential effect
on the manager's state.  Enable: insert the key into the active set and
spawn the supervisor thread (whose body is `supervisor_loop`; it never
mutates the active set).  Disable: remove the key from the set, then look
up the registry entry (`.unwrap()`: a missing key panics, modelled by
`none`) and run its kill command (an external effect; its failure is
logged, not propagated).  Finally return `has_active_tunnels()`. -/
def TunnelManager.toggle (m : TunnelManager) (command_key : String)
    (enable : Bool) : Option (TunnelManager × Bool) :=
  if enable then
    let m' := { m with active_tunnels := insertSet command_key m.active_tunnels }
    some (m', m'.has_active_tunnels)
  else
    let m' := { m with active_tunnels := removeSet command_key m.active_tunnels }
    match lookupKey command_key m.commands_config with
    | none => none
    | some _cmd_data => some (m', m'.has_active_tunnels)

/-! ## Helper lemmas -/

/-- Closed form of `check_and_run_missed_tasks`: each missed task is
replaced by the result of executing it, every other task is untouched;
the executed keys are exactly the keys of the missed tasks, and
`any_task_run` holds iff some missed task's spawn succeeded. -/
lemma check_and_run_missed_tasks_eq (now : Instant) (spawn_ok : String → Bool)
    (tasks : List (String × ScheduledTask)) :
    check_and_run_missed_tasks now spawn_ok tasks =
      (tasks.map (fun p =>
          if missed p.2 now then (p.1, (p.2.execute now (spawn_ok p.1)).1) else p),
       (tasks.filter (fun p => missed p.2 now)).map Prod.fst,
       (tasks.filter (fun p => missed p.2 now)).any (fun p => spawn_ok p.1)) := by
  induction tasks with
  | nil => rfl
  | cons hd tl ih =>
    obtain ⟨key, task⟩ := hd
    simp only [check_and_run_missed_tasks, ih, List.map_cons, List.filter_cons]
    cases hnr : task.next_run with
    | none =>
      simp [missed, hnr]
    | some next_run =>
      cases hlr : task.last_run with
      | none =>
        by_cases hov : next_run ≤ now
        · cases hok : spawn_ok key <;>
            simp [missed, hnr, hlr, hov, ScheduledTask.execute, hok]
        · simp [missed, hnr, hlr, hov]
      | some lr =>
        by_cases hov : next_run ≤ now
        · by_cases hwn : lr < next_run
          · cases hok : spawn_ok key <;>
              simp [missed, hnr, hlr, hov, hwn, ScheduledTask.execute, hok]
          · simp [missed, hnr, hlr, hov, hwn]
        · by_cases hwn : lr < next_run <;>
            simp [missed, hnr, hlr, hov, hwn]

/-- A task holding a compiled evaluator that was successfully executed at
`now` is not missed at `now`: the execution sets `last_run := now`, and
the missed predicate would need both `next_run ≤ now` and
`now < next_run`. -/
lemma missed_after_successful_execute (t : ScheduledTask) (now : Instant)
    (c : CronEval) (hc : t.cron = some c) :
    missed ((t.execute now true).1) now = false := by
  simp only [ScheduledTask.execute, if_pos, ScheduledTask.update_next_run, hc]
  cases hcn : c now with
  | none => simp [missed]
  | some v => simp [missed, hcn]

/-! ## Claims -/

/-- C1: `check_and_run_missed_tasks` executes a task iff its `next_run`
is defined, `now >= next_run`, and (`last_run` is absent or
`last_run < next_run`); the executed keys are exactly the keys of the
tasks satisfying that predicate, and every task not satisfying it is left
unexecuted with its entry unchanged. -/
theorem check_missed_executes_iff_missed (now : Instant)
    (spawn_ok : String → Bool) (tasks : List (String × ScheduledTask)) :
    (check_and_run_missed_tasks now spawn_ok tasks).2.1 =
      (tasks.filter (fun p => missed p.2 now)).map Prod.fst
    ∧ (check_and_run_missed_tasks now spawn_ok tasks).1 =
      tasks.map (fun p =>
        if missed p.2 now then (p.1, (p.2.execute now (spawn_ok p.1)).1) else p) := by
  rw [check_and_run_missed_tasks_eq]
  exact ⟨rfl, rfl⟩

/-- C2: with no time passing and every spawn succeeding, a second call to
`check_and_run_missed_tasks` executes nothing, so each task missed at the
first call is executed exactly once across the two calls.  The
hypotheses record that the task keys are distinct (a `HashMap`) and the
construction invariant that every task holds a compiled evaluator
(`ScheduledTask::new` always stores one). -/
theorem check_missed_twice_executes_once (now : Instant)
    (tasks : List (String × ScheduledTask))
    (hnodup : (tasks.map Prod.fst).Nodup)
    (hcron : ∀ p ∈ tasks, ∃ c, p.2.cron = some c) :
    (check_and_run_missed_tasks now (fun _ => true)
        (check_and_run_missed_tasks now (fun _ => true) tasks).1).2.1 = []
    ∧ ∀ p ∈ tasks, missed p.2 now = true →
        ((check_and_run_missed_tasks now (fun _ => true) tasks).2.1 ++
         (check_and_run_missed_tasks now (fun _ => true)
            (check_and_run_missed_tasks now (fun _ => true) tasks).1).2.1).count
          p.1 = 1 := by
  have hsecond :
      ((check_and_run_missed_tasks now (fun _ => true) tasks).1.filter
        (fun p => missed p.2 now)) = [] := by
    rw [check_and_run_missed_tasks_eq]
    rw [List.filter_eq_nil_iff]
    intro a ha
    rcases List.mem_map.mp ha with ⟨p, hp, rfl⟩
    by_cases hm : missed p.2 now = true
    · rcases hcron p hp with ⟨c, hc⟩
      simp only [hm, if_pos]
      simpa using missed_after_successful_execute p.2 now c hc
    · simp only [Bool.not_eq_true] at hm
      simp [hm]
  have hkeys2 :
      (check_and_run_missed_tasks now (fun _ => true)
        (check_and_run_missed_tasks now (fun _ => true) tasks).1).2.1 = [] := by
    rw [check_and_run_missed_tasks_eq now (fun _ => true)
      (check_and_run_missed_tasks now (fun _ => true) tasks).1]
    simp [hsecond]
  refine ⟨hkeys2, ?_⟩
  intro p hp hm
  rw [hkeys2, List.append_nil]
  have hkeys1 :
      (check_and_run_missed_tasks now (fun _ => true) tasks).2.1 =
        (tasks.filter (fun q => missed q.2 now)).map Prod.fst := by
    rw [check_and_run_missed_tasks_eq]
  rw [hkeys1]
  have hsub : List.Sublist
      ((tasks.filter (fun q => missed q.2 now)).map Prod.fst)
      (tasks.map Prod.fst) :=
    (List.filter_sublist tasks).map Prod.fst
  have hnd : ((tasks.filter (fun q => missed q.2 now)).map Prod.fst).Nodup :=
    hnodup.sublist hsub
  have hmem : p.1 ∈ (tasks.filter (fun q => missed q.2 now)).map Prod.fst :=
    List.mem_map.mpr ⟨p, List.mem_filter.mpr ⟨hp, hm⟩, rfl⟩
  exact List.count_eq_one_of_mem hnd hmem

/-- C2 witness: one task that is missed at `now = 10` (due at `0`, never
run) with the evaluator `u ↦ u + 60`: the second call executes nothing
and the task's key is executed exactly once across the two calls. -/
theorem check_missed_twice_executes_once_witness :
    (check_and_run_missed_tasks 10 (fun _ => true)
        (check_and_run_missed_tasks 10 (fun _ => true)
          [("t", ⟨"t", "cmd", [], "s", none, some 0,
             some (fun u => some (u + 60))⟩)]).1).2.1 = []
    ∧ ((check_and_run_missed_tasks 10 (fun _ => true)
          [("t", ⟨"t", "cmd", [], "s", none, some 0,
             some (fun u => some (u + 60))⟩)]).2.1 ++
       (check_and_run_missed_tasks 10 (fun _ => true)
          (check_and_run_missed_tasks 10 (fun _ => true)
            [("t", ⟨"t", "cmd", [], "s", none, some 0,
               some (fun u => some (u + 60))⟩)]).1).2.1).count "t" = 1 := by
  have h := check_missed_twice_executes_once 10
    [("t", ⟨"t", "cmd", [], "s", none, some 0, some (fun u => some (u + 60))⟩)]
    (by simp)
    (by
      intro p hp
      rcases List.mem_singleton.mp hp with rfl
      exact ⟨fun u => some (u + 60), rfl⟩)
  exact ⟨h.1, h.2
    ("t", ⟨"t", "cmd", [], "s", none, some 0, some (fun u => some (u + 60))⟩)
    (List.mem_singleton.mpr rfl) rfl⟩

/-- `HashMap::get` after `HashMap::insert` at the same key. -/
lemma lookupKey_insertKey (key : String) (v : α) (l : List (String × α)) :
    lookupKey key (insertKey key v l) = some v := by
  induction l with
  | nil => simp [insertKey, lookupKey]
  | cons p rest ih =>
    by_cases h : p.1 = key
    · simp [insertKey, h, lookupKey]
    · simp [insertKey, h, lookupKey, ih]

/-- `calculate_next_run` just forwards the evaluator's answer. -/
lemma calculate_next_run_eq (c : CronEval) (t : Instant) :
    ScheduledTask.calculate_next_run c t = c t := by
  cases h : c t <;> simp [ScheduledTask.calculate_next_run, h]

/-- C4: `ScheduledTask::execute` on a spawn failure returns an error and
leaves `last_run` and `next_run` exactly as they were, so the task's
due predicate (`should_run`) is unchanged at every instant. -/
theorem execute_spawn_failure_leaves_task_due (t : ScheduledTask)
    (now now' : Instant) :
    (t.execute now false).1.last_run = t.last_run
    ∧ (t.execute now false).1.next_run = t.next_run
    ∧ (∃ msg, (t.execute now false).2 = .error msg)
    ∧ (t.execute now false).1.should_run now' = t.should_run now' := by
  simp [ScheduledTask.execute]

/-- C5: `add_task` fails exactly when the cron expression does not parse,
in which case the task map is unchanged; on success the stored task
reuses a persisted `next_run` verbatim when one exists (otherwise the
evaluator computes one from `now`), and takes `last_run` from the
persisted state when present. -/
theorem add_task_builds_task_from_persisted_state
    (parse : String → Option CronEval) (sch : TaskScheduler) (key : String)
    (config : ScheduledTaskConfig) (now : Instant) :
    ((∃ e, (sch.add_task parse key config now).2 = .error e) ↔
        parse config.cron_schedule = none)
    ∧ (parse config.cron_schedule = none →
        (sch.add_task parse key config now).1 = sch)
    ∧ ∀ c, parse config.cron_schedule = some c →
        ∃ task,
          lookupKey key (sch.add_task parse key config now).1.tasks = some task
          ∧ task.next_run =
              (match lookupKey key sch.states with
               | some st =>
                 match st.next_run with
                 | some saved_next_run => some saved_next_run
                 | none => c now
               | none => c now)
          ∧ task.last_run = (lookupKey key sch.states).bind (fun s => s.last_run) := by
  cases hparse : parse config.cron_schedule with
  | none =>
    refine ⟨⟨fun _ => rfl, fun _ => ?_⟩, fun _ => ?_, fun c hc => ?_⟩
    · exact ⟨"Failed to parse cron schedule " ++ config.cron_schedule,
        by simp [TaskScheduler.add_task, ScheduledTask.new, hparse]⟩
    · simp [TaskScheduler.add_task, ScheduledTask.new, hparse]
    · cases hc
  | some c₀ =>
    refine ⟨⟨fun ⟨e, he⟩ => ?_, fun h => ?_⟩, fun h => ?_, fun c hc => ?_⟩
    · simp [TaskScheduler.add_task, ScheduledTask.new, hparse] at he
    · cases h
    · cases h
    · cases hc
      refine ⟨{ name := config.name, command := config.command,
                args := config.args, cron_schedule := config.cron_schedule,
                last_run := (lookupKey key sch.states).bind (fun s => s.last_run),
                next_run :=
                  match lookupKey key sch.states with
                  | some st =>
                    match st.next_run with
                    | some saved_next_run => some saved_next_run
                    | none => ScheduledTask.calculate_next_run c₀ now
                  | none => ScheduledTask.calculate_next_run c₀ now,
                cron := some c₀ }, ?_, ?_, ?_⟩
      · simp only [TaskScheduler.add_task, ScheduledTask.new, hparse]
        exact lookupKey_insertKey key _ sch.tasks
      · cases hst : lookupKey key sch.states with
        | none => simp [hst, calculate_next_run_eq]
        | some st =>
          cases hnr : st.next_run with
          | none => simp [hst, hnr, calculate_next_run_eq]
          | some saved => simp [hst, hnr]
      · rfl

/-- C5 witness: with no persisted state, an evaluator `u ↦ u + 1` and
`now = 5`, the added task has `next_run = 6` and no `last_run`; the
parse-failure direction is exercised at an unknown schedule string. -/
theorem add_task_builds_task_witness :
    (∃ task,
      lookupKey "daily"
        ((TaskScheduler.mk [] "/usr/bin" false [] "state.toml").add_task
          (fun s => if s = "sched" then some (fun u => some (u + 1)) else none)
          "daily" ⟨"Daily", "echo", [], "sched", none, none, none⟩ 5).1.tasks
        = some task
      ∧ task.next_run = some 6
      ∧ task.last_run = none)
    ∧ ((TaskScheduler.mk [] "/usr/bin" false [] "state.toml").add_task
        (fun s => if s = "sched" then some (fun u => some (u + 1)) else none)
        "daily" ⟨"Bad", "echo", [], "bad sched", none, none, none⟩ 5).1
      = TaskScheduler.mk [] "/usr/bin" false [] "state.toml" :=
  ⟨(add_task_builds_task_from_persisted_state
      (fun s => if s = "sched" then some (fun u => some (u + 1)) else none)
      (TaskScheduler.mk [] "/usr/bin" false [] "state.toml") "daily"
      ⟨"Daily", "echo", [], "sched", none, none, none⟩ 5).2.2
      (fun u => some (u + 1)) rfl,
   (add_task_builds_task_from_persisted_state
      (fun s => if s = "sched" then some (fun u => some (u + 1)) else none)
      (TaskScheduler.mk [] "/usr/bin" false [] "state.toml") "daily"
      ⟨"Bad", "echo", [], "bad sched", none, none, none⟩ 5).2.1 rfl⟩

/-- One `TaskState` survives serialization followed by
deserialization. -/
lemma fromToml_toToml (s : TaskState) :
    TaskState.fromToml s.toToml = some s := by
  cases s with
  | mk lr nr => cases lr <;> cases nr <;> rfl

/-- The whole table of entries survives the round trip. -/
lemma decodeStateEntries_round_trip (states : List (String × TaskState)) :
    decodeStateEntries (states.map (fun p => (p.1, p.2.toToml))) = some states := by
  induction states with
  | nil => rfl
  | cons p rest ih =>
    simp [decodeStateEntries, fromToml_toToml, ih]

/-- C9: saving a map of task states with `save_task_states` and loading
it back with `load_task_states` reproduces the map exactly: the same
entries, hence the same keys and identical `last_run`/`next_run` values
for every key. -/
theorem save_load_round_trip (path : String)
    (states : List (String × TaskState)) (fs : FileSystem) :
    load_task_states path (save_task_states path states fs) = states
    ∧ (load_task_states path (save_task_states path states fs)).map Prod.fst
      = states.map Prod.fst
    ∧ ∀ key, lookupKey key (load_task_states path (save_task_states path states fs))
      = lookupKey key states := by
  have h : load_task_states path (save_task_states path states fs) = states := by
    simp [load_task_states, save_task_states, lookupKey_insertKey,
      statesToToml, statesFromToml, decodeStateEntries_round_trip]
  exact ⟨h, by rw [h], fun key => by rw [h]⟩

/-- The supervisor loop, started at any attempt count that is at most 5
with the key present in the registry, runs to completion without
panicking, leaves the active set untouched, and ends with an attempts
counter of at most 5. -/
lemma supervisor_loop_result (commands_config : List (String × TunnelCommand))
    (active : List String) (key : String) (spawn_ok : Nat → Bool)
    (hkey : (lookupKey key commands_config).isSome) :
    ∀ k attempts, 5 - attempts = k → attempts ≤ 5 →
      ∃ n, supervisor_loop commands_config active key spawn_ok attempts
          = some (n, active) ∧ n ≤ 5 := by
  intro k
  induction k with
  | zero =>
    intro attempts hk hle
    have h5 : attempts = 5 := by omega
    subst h5
    rw [supervisor_loop]
    rw [dif_neg (by omega)]
    exact ⟨5, rfl, le_refl 5⟩
  | succ k ih =>
    intro attempts hk _hle
    have hlt : attempts < 5 := by omega
    rw [supervisor_loop]
    by_cases hmem : key ∈ active
    · rw [dif_pos ⟨hmem, hlt⟩]
      rcases Option.isSome_iff_exists.mp hkey with ⟨cmd, hcmd⟩
      rw [hcmd]
      exact ih (attempts + 1) (by omega) (by omega)
    · rw [dif_neg (by intro hc; exact hmem hc.1)]
      exact ⟨attempts, rfl, by omega⟩

/-- C3: the supervisor loop spawned by `toggle(key, true)` for a
registered key performs at most 5 iterations (each iteration making one
spawn attempt), so it terminates when every attempt fails to spawn or the
child exits immediately; and the loop never removes the key from the
active set, which is returned unchanged. -/
theorem supervisor_retry_bound (commands_config : List (String × TunnelCommand))
    (active : List String) (key : String) (spawn_ok : Nat → Bool)
    (hkey : (lookupKey key commands_config).isSome) :
    ∃ n, supervisor_loop commands_config active key spawn_ok 0
        = some (n, active) ∧ n ≤ 5 :=
  supervisor_loop_result commands_config active key spawn_ok hkey 5 0 rfl
    (by omega)

/-- C3 witness: one registered tunnel whose spawn always fails; the loop
finishes with at most 5 attempts and the active set still `["k"]`. -/
theorem supervisor_retry_bound_witness :
    ∃ n, supervisor_loop [("k", ⟨"sleep", [], "pkill", []⟩)] ["k"] "k"
        (fun _ => false) 0 = some (n, ["k"]) ∧ n ≤ 5 :=
  supervisor_retry_bound [("k", ⟨"sleep", [], "pkill", []⟩)] ["k"] "k"
    (fun _ => false) rfl

/-- C6: at the failing input (configured path `/opt/custom/bin`, process
PATH `/usr/bin`) the PATH handed to the spawned start command is the
configured path alone, not the merge the spec describes: the fragment
inspects `Command::get_envs` of a freshly created builder, which never
contains the inherited `PATH`, so the prepend branch can never fire. -/
theorem tunnel_spawn_path_ignores_existing_path :
    spawn_attempt_path ⟨"ssh", ["-N"], "pkill", ["-f"]⟩ "/opt/custom/bin"
        (some "/usr/bin") = "/opt/custom/bin"
    ∧ spec_merged_path "/opt/custom/bin" (some "/usr/bin")
        = "/opt/custom/bin:/usr/bin"
    ∧ spawn_attempt_path ⟨"ssh", ["-N"], "pkill", ["-f"]⟩ "/opt/custom/bin"
        (some "/usr/bin")
      ≠ spec_merged_path "/opt/custom/bin" (some "/usr/bin") := by
  refine ⟨rfl, rfl, ?_⟩
  decide

/-- C7 counterexample: toggling off a key that has no entry in the
command registry panics (`cfg.get(command_key).unwrap()` on `None`),
modelled by `toggle` returning `none`. -/
theorem toggle_unregistered_disable_panics :
    TunnelManager.toggle ⟨[], ["k8s-example"]⟩ "k8s-example" false = none := rfl

/-- C7 amended: `toggle(key, enable)` completes without panicking
whenever `enable` is true (the enable path never consults the registry
in the calling thread; the unregistered lookup panics only inside the
spawned supervisor thread) or `key` is present in the registry; the
disable path with an unregistered key panics. -/
theorem toggle_no_panic_when_enabled_or_registered (m : TunnelManager)
    (key : String) (enable : Bool)
    (h : enable = true ∨ (lookupKey key m.commands_config).isSome) :
    (m.toggle key enable).isSome := by
  cases enable with
  | true => simp [TunnelManager.toggle]
  | false =>
    rcases h with h | h
    · cases h
    · rcases Option.isSome_iff_exists.mp h with ⟨cmd, hcmd⟩
      simp [TunnelManager.toggle, hcmd]

/-- C7 witness: enabling an unregistered key still completes. -/
theorem toggle_no_panic_witness :
    ((TunnelManager.mk [] []).toggle "missing" true).isSome :=
  toggle_no_panic_when_enabled_or_registered ⟨[], []⟩ "missing" true
    (Or.inl rfl)

/-- C8: whenever `toggle` completes, its boolean result equals
`has_active_tunnels()` of the resulting state, the resulting active set
is exactly the toggled set (insertion for enable, removal for disable),
and the result is `true` iff that set is non-empty. -/
theorem toggle_returns_any_active (m : TunnelManager) (key : String)
    (enable : Bool) (m' : TunnelManager) (r : Bool)
    (h : m.toggle key enable = some (m', r)) :
    r = m'.has_active_tunnels
    ∧ m'.active_tunnels =
        (if enable then insertSet key m.active_tunnels
         else removeSet key m.active_tunnels)
    ∧ (r = true ↔ ¬ (if enable then insertSet key m.active_tunnels
         else removeSet key m.active_tunnels) = []) := by
  cases enable with
  | true =>
    simp only [TunnelManager.toggle, if_true, Option.some_inj] at h
    cases h
    refine ⟨rfl, rfl, ?_⟩
    simp [TunnelManager.has_active_tunnels, List.isEmpty_iff]
  | false =>
    simp only [TunnelManager.toggle, Bool.false_eq_true, if_false] at h
    cases hc : lookupKey key m.commands_config with
    | none => rw [hc] at h; cases h
    | some cmd =>
      rw [hc] at h
      simp only [Option.some_inj] at h
      cases h
      refine ⟨rfl, rfl, ?_⟩
      simp [TunnelManager.has_active_tunnels, List.isEmpty_iff]

/-- C8 witness: enabling `"k"` on an empty active set yields `true`,
matching `has_active_tunnels` of the new state `{"k"}`. -/
theorem toggle_returns_any_active_witness :
    true = (TunnelManager.mk [("k", ⟨"c", [], "kc", []⟩)] ["k"]).has_active_tunnels
    ∧ (TunnelManager.mk [("k", ⟨"c", [], "kc", []⟩)] ["k"]).active_tunnels =
        (if true then insertSet "k" ([] : List String)
         else removeSet "k" ([] : List String))
    ∧ (true = true ↔ ¬ (if true then insertSet "k" ([] : List String)
         else removeSet "k" ([] : List String)) = []) :=
  toggle_returns_any_active ⟨[("k", ⟨"c", [], "kc", []⟩)], []⟩ "k" true
    ⟨[("k", ⟨"c", [], "kc", []⟩)], ["k"]⟩ true rfl

/-- `HashSet::insert` never yields an empty set. -/
lemma insertSet_ne_nil (key : String) (s : List String) :
    insertSet key s ≠ [] := by
  unfold insertSet
  split
  · rename_i hmem
    intro h
    rw [h] at hmem
    cases hmem
  · simp

/-- C10: for a key present in the registry, `toggle(key, true)` returns
`true`: the enable path inserts the key into the active set before
computing the return value from the set's non-emptiness. -/
theorem toggle_enable_registered_returns_true (m : TunnelManager)
    (key : String) (_hkey : (lookupKey key m.commands_config).isSome) :
    ∃ m', m.toggle key true = some (m', true) := by
  refine ⟨{ m with active_tunnels := insertSet key m.active_tunnels }, ?_⟩
  have h := insertSet_ne_nil key m.active_tunnels
  simp [TunnelManager.toggle, TunnelManager.has_active_tunnels,
    List.isEmpty_iff, h]

/-- C10 witness: a registered key `"k"` toggled on over an empty active
set returns `true`. -/
theorem toggle_enable_registered_returns_true_witness :
    ∃ m', (TunnelManager.mk [("k", ⟨"c", [], "kc", []⟩)] []).toggle "k" true
        = some (m', true) :=
  toggle_enable_registered_returns_true
    ⟨[("k", ⟨"c", [], "kc", []⟩)], []⟩ "k" rfl

end SomethingBg
